import Mathlib

/-!
Shallow embedding of the typescript-tetris game-state engine
(files: util.ts / movement.ts / main.ts of the final snapshot).

Grids ("canvases") are lists of rows, a row being a list of optional
blocks, mirroring the TypeScript `Canvas = (Block | undefined)[][]`.
Coordinates are integers (`Int`), as the game freely forms coordinates
such as `position.x + direction.x` that may leave the grid; reading an
out-of-range coordinate yields `none`, which is how the original code's
`canvas[y][x]` behaves (with the guards the code places around each
access).  All arithmetic the game performs on scores, levels and
coordinates is exact integer / rational arithmetic, faithfully
reproducing the JavaScript number semantics on the values that occur.
-/

/-- The colour union type of `block.ts`.  `grey` is the extra colour the
reducer assigns to every block after game over. -/
inductive Colour where
  | aqua | red | blue | green | yellow | purple | orange | grey
deriving DecidableEq, Repr

/-- A block: colour plus the `isActive` flag (`true` while the block is part
of the falling, player-controlled piece). -/
structure Block where
  colour : Colour
  isActive : Bool
deriving DecidableEq, Repr

/-- `createBlock` from `block.ts`: builds a block with the given colour and
status (the source defaults `status` to `true`; every call site below passes
it explicitly). -/
def createBlock (colour : Colour) (status : Bool) : Block :=
  { colour := colour, isActive := status }

/-- A two-dimensional integer-or-rational point, as the `{ x, y }` records the
source passes around for positions and directions. -/
structure Pt (α : Type) where
  x : α
  y : α
deriving DecidableEq, Repr

/-- Grid coordinates and movement deltas. -/
abbrev Pos := Pt Int

/-- `Canvas = (Block | undefined)[][]`. -/
abbrev Canvas := List (List (Option Block))

/-- A tetromino template: a list of (block, relative x, relative y) triples,
mirroring `Tetromino` of `block.ts`. -/
structure Tetromino where
  blocks : List (Block × Int × Int)
deriving DecidableEq, Repr

/-- `Constants.GRID_WIDTH`. -/
def GRID_WIDTH : Int := 10

/-- `Constants.GRID_HEIGHT` (the playfield height; the stored grid has
`GRID_HEIGHT + 2` rows, the two extra rows being the hidden spawn buffer). -/
def GRID_HEIGHT : Int := 20

/-- The game state record of `state.ts`. -/
structure State where
  canvas : Canvas
  previewCanvas : Canvas
  activeBlockPositions : List Pos
  gameEnd : Bool
  score : Nat
  level : Nat
  highScore : Nat
  nextTetromino : Tetromino
deriving DecidableEq, Repr

/-- Reading `canvas[y][x]`: `none` when either index is outside the stored
matrix, mirroring how the guarded JavaScript accesses behave. -/
def cellAt (canvas : Canvas) (x y : Int) : Option Block :=
  if 0 ≤ x ∧ 0 ≤ y then (((canvas[y.toNat]?).getD [])[x.toNat]?).getD none else none

/-- `(x, y)` addresses an entry actually stored in the matrix. -/
def validIdx (canvas : Canvas) (x y : Int) : Prop :=
  0 ≤ x ∧ 0 ≤ y ∧ y.toNat < canvas.length ∧ x.toNat < ((canvas[y.toNat]?).getD []).length

instance (canvas : Canvas) (x y : Int) : Decidable (validIdx canvas x y) := by
  unfold validIdx; infer_instance

/-- The shared body of `addBlockToCanvas` and `removeBlockFromCanvas`
(movement.ts): rebuild the matrix, replacing the entry at `(x, y)` — if it is
stored at all — by `block`. -/
def setCell (canvas : Canvas) (block : Option Block) (x y : Int) : Canvas :=
  canvas.enum.map (fun rowp =>
    rowp.2.enum.map (fun cellp =>
      if (rowp.1 : Int) = y ∧ (cellp.1 : Int) = x then block else cellp.2))

/-- `addBlockToCanvas(canvas)(block)(x, y)` of movement.ts. -/
def addBlockToCanvas (canvas : Canvas) (block : Option Block) (x y : Int) : Canvas :=
  setCell canvas block x y

/-- `removeBlockFromCanvas(canvas)(x, y)` of movement.ts (same body as
`addBlockToCanvas` with `undefined` as the written value). -/
def removeBlockFromCanvas (canvas : Canvas) (x y : Int) : Canvas :=
  setCell canvas none x y

/-- The body of `updateActiveBlocks` (movement.ts): scan the canvas row-major
and collect the coordinates of every cell holding an active block.  The source
function reads only `state.canvas`, so the scan is stated on a bare canvas. -/
def activeBlocksOf (canvas : Canvas) : List Pos :=
  canvas.enum.foldl (fun acc rowp =>
    rowp.2.enum.foldl (fun acc2 cellp =>
      match cellp.2 with
      | some b => if b.isActive then acc2 ++ [⟨(cellp.1 : Int), (rowp.1 : Int)⟩] else acc2
      | none => acc2) acc) []

/-- `updateActiveBlocks(state)` of movement.ts. -/
def updateActiveBlocks (s : State) : List Pos := activeBlocksOf s.canvas

/-- The active positions a single (row-index, row) pair contributes. -/
def rowActives (ri : Nat) (row : List (Option Block)) : List Pos :=
  row.enum.filterMap (fun cellp =>
    match cellp.2 with
    | some b => if b.isActive then some ⟨(cellp.1 : Int), (ri : Int)⟩ else none
    | none => none)

/-- `checkCollision(canvas)(blocks, direction)` of util.ts: the reduce over the
piece's cells.  Note the two quirks of the source, reproduced exactly: a
destination row `direction.y + y <= 0` (row 0 included) is a boundary
collision, and an active block at the destination contributes `false || acc`,
i.e. leaves the accumulator unchanged. -/
def checkCollision (canvas : Canvas) (blocks : List Pos) (direction : Pos) : Bool :=
  blocks.foldl (fun acc block =>
    if direction.y + block.y ≥ GRID_HEIGHT + 2 ∨ direction.y + block.y ≤ 0 then true
    else if (cellAt canvas (direction.x + block.x) (direction.y + block.y)).isSome
        ∨ direction.x + block.x < 0 ∨ direction.x + block.x ≥ GRID_WIDTH then
      if (match cellAt canvas (direction.x + block.x) (direction.y + block.y) with
          | some b => b.isActive
          | none => false) then acc
      else true
    else acc) false

/-- The contribution of one member cell to `checkCollision` (the reduce body
with the accumulator factored out). -/
def collidesCell (canvas : Canvas) (direction : Pos) (block : Pos) : Bool :=
  if direction.y + block.y ≥ GRID_HEIGHT + 2 ∨ direction.y + block.y ≤ 0 then true
  else if (cellAt canvas (direction.x + block.x) (direction.y + block.y)).isSome
      ∨ direction.x + block.x < 0 ∨ direction.x + block.x ≥ GRID_WIDTH then
    if (match cellAt canvas (direction.x + block.x) (direction.y + block.y) with
        | some b => b.isActive
        | none => false) then false
    else true
  else false

/-- An empty row of width `GRID_WIDTH`:
`new Array(Constants.GRID_WIDTH).fill(undefined)`. -/
def emptyRow : List (Option Block) := List.replicate GRID_WIDTH.toNat none

/-- The initial empty canvas constant of canvas.ts:
`new Array(Constants.GRID_HEIGHT + 2).fill(new Array(GRID_WIDTH).fill(undefined))`.
(The source names this constant `Canvas`, shadowing the type name.) -/
def CanvasInit : Canvas := List.replicate (GRID_HEIGHT + 2).toNat emptyRow

/-- The inner reduce of `checkForTetris` (util.ts) deciding whether a row is a
completed line: starting from `true`, an occupied inactive cell contributes
`true && acc` (keep), anything else contributes `false && acc` (i.e. `false`). -/
def isTetrisRow (row : List (Option Block)) : Bool :=
  row.foldl (fun acc cell =>
    match cell with
    | some b => if b.isActive = false then acc else false
    | none => false) true

/-- `checkForTetris(state)` of util.ts: line clear plus scoring.  For each
completed row the reduce prepends a fresh empty row to the accumulated list and
drops the completed row; every other row is appended.  Afterwards the function
appends `rowsReplaced` further empty rows below the result, adds
`rowsReplaced * (100 * level / 2)` to the score, and recomputes the level as
`floor(score / 500) + 1`. -/
def checkForTetris (s : State) : State :=
  let updatedCanvas := s.canvas.foldl (fun acc row =>
    if isTetrisRow row then emptyRow :: acc else acc ++ [row]) []
  let rowsReplaced := (s.canvas.filter (fun row => isTetrisRow row)).length
  let score := s.score + rowsReplaced * (100 * s.level / 2)
  let level := score / 500 + 1
  { s with
    canvas := updatedCanvas ++ List.replicate rowsReplaced emptyRow,
    score := score,
    level := level }

/-- `makeAllBlocksInactive(state)` of util.ts: clear the `isActive` flag of
every block and empty the stored active-position list. -/
def makeAllBlocksInactive (s : State) : State :=
  { s with
    canvas := s.canvas.map (fun row =>
      row.map (fun cell => cell.map (fun b => { b with isActive := false }))),
    activeBlockPositions := [] }

/-- `spawnTetromino(canvas)(tetromino)(x, y, colour?)` of util.ts: write each
cell of the template onto the canvas (unconditionally), marked active, using
the optional colour override when given. -/
def spawnTetromino (canvas : Canvas) (tetromino : Tetromino) (x y : Int)
    (colour : Option Colour) : Canvas :=
  tetromino.blocks.foldl (fun acc block =>
    let blockToAdd := createBlock (colour.getD block.1.colour) true
    addBlockToCanvas acc (some blockToAdd) (block.2.1 + x) (block.2.2 + y)) canvas

/-- `moveBlock(canvas)(x, y)(newX, newY)` of movement.ts (with the `force`
parameter at its default `false`, as at every call site): move the block at
`(x, y)` to `(newX, newY)` when the target is inside the grid and empty,
otherwise return the canvas unchanged. -/
def moveBlock (canvas : Canvas) (x y newX newY : Int) : Canvas :=
  let block := cellAt canvas x y
  if newX < 0 ∨ newX ≥ GRID_WIDTH ∨ newY < 0 ∨ newY ≥ GRID_HEIGHT + 2 then canvas
  else if 0 ≤ newX ∧ newX < GRID_WIDTH ∧ (cellAt canvas newX newY).isNone then
    addBlockToCanvas (removeBlockFromCanvas canvas x y) block newX newY
  else canvas

/-- `moveActiveTetromino(state, direction)` of movement.ts: recompute the
active positions, then fold `moveBlock` over them — left-to-right for a move
to the left, right-to-left (`reduceRight`) for a move to the right or down —
re-checking `checkCollision` against the evolving canvas (with the original
position list) before each single-cell move. -/
def moveActiveTetromino (s : State) (direction : Pos) : State :=
  let activeBlockPositions := updateActiveBlocks s
  if activeBlockPositions.length > 0 ∧ direction.x < 0 then
    let updatedCanvas := activeBlockPositions.foldl (fun canvas position =>
      if checkCollision canvas activeBlockPositions direction then canvas
      else moveBlock canvas position.x position.y
        (position.x + direction.x) (position.y + direction.y)) s.canvas
    { s with
      canvas := updatedCanvas,
      activeBlockPositions := activeBlocksOf updatedCanvas }
  else if activeBlockPositions.length > 0 ∧ (direction.x > 0 ∨ direction.y > 0) then
    let updatedCanvas := activeBlockPositions.reverse.foldl (fun canvas position =>
      if checkCollision canvas activeBlockPositions direction then canvas
      else moveBlock canvas position.x position.y
        (position.x + direction.x) (position.y + direction.y)) s.canvas
    { s with
      canvas := updatedCanvas,
      activeBlockPositions := activeBlocksOf updatedCanvas }
  else s

/-- `Math.round` of JavaScript on the (exactly representable) rational values
the rotation produces: `floor(q + 1/2)`, rounding half-integers up. -/
def jsRound (q : Rat) : Int := ⌊q + 1 / 2⌋

/-- `rotationHelper(blocks, rotationDirection)` of movement.ts: the 90-degree
rotation matrix applied to origin-centred (rational) coordinates; any direction
other than `1` / `-1` logs an error and returns the blocks unchanged. -/
def rotationHelper (blocks : List (Pt Rat)) (rotationDirection : Int) : List (Pt Rat) :=
  if rotationDirection = 1 then
    blocks.map (fun block => ⟨block.x * 0 + block.y * 1, block.x * -1 + block.y * 0⟩)
  else if rotationDirection = -1 then
    blocks.map (fun block => ⟨block.x * 0 + block.y * -1, block.x * 1 + block.y * 0⟩)
  else blocks

/-- The centre-of-rotation computation of `rotateTetromino` (movement.ts):
sum the coordinates with a reduce, then divide each component by the number of
active blocks (exact rational division, as with JavaScript numbers). -/
def centreOfRotation (positions : List Pos) : Pt Rat :=
  let sum := positions.foldl
    (fun acc block => (⟨acc.x + block.x, acc.y + block.y⟩ : Pt Int)) ⟨0, 0⟩
  ⟨(sum.x : Rat) / (positions.length : Rat), (sum.y : Rat) / (positions.length : Rat)⟩

/-- The coordinate pipeline of `rotateTetromino` (movement.ts, lines building
`translatedBlocks`, `rotatedBlocks` and `updatedBlocks`): translate the active
positions by the (unrounded) centroid, apply `rotationHelper`, translate back,
and round each coordinate with `Math.round`. -/
def rotatedPositions (positions : List Pos) (direction : Int) : List Pos :=
  let centre := centreOfRotation positions
  let translatedBlocks := positions.map (fun block =>
    (⟨(block.x : Rat) - centre.x, (block.y : Rat) - centre.y⟩ : Pt Rat))
  let rotatedBlocks := rotationHelper translatedBlocks direction
  rotatedBlocks.map (fun block =>
    (⟨jsRound (block.x + centre.x), jsRound (block.y + centre.y)⟩ : Pos))

/-- The canvas with every active cell removed, as built by the reduce at the
start of `rotateTetromino` (movement.ts). -/
def removedActiveCanvas (s : State) : Canvas :=
  (updateActiveBlocks s).foldl
    (fun canvas position => removeBlockFromCanvas canvas position.x position.y) s.canvas

/-- `rotateTetromino(state, direction)` of movement.ts. -/
def rotateTetromino (s : State) (direction : Int) : State :=
  let activeBlockPositions := updateActiveBlocks s
  if activeBlockPositions.length = 0 then s
  else
    let removedActiveBlock := removedActiveCanvas s
    let updatedBlocks := rotatedPositions activeBlockPositions direction
    if checkCollision s.canvas updatedBlocks ⟨0, 0⟩ then s
    else
      let colour := (cellAt s.canvas (activeBlockPositions.headD ⟨0, 0⟩).x
        (activeBlockPositions.headD ⟨0, 0⟩).y).map Block.colour
      let updatedTetronimo : Tetromino :=
        ⟨updatedBlocks.map (fun block =>
          (createBlock (colour.getD Colour.blue) true, block.x, block.y))⟩
      { s with
        canvas := spawnTetromino removedActiveBlock updatedTetronimo 0 0 none,
        activeBlockPositions := updatedBlocks }

/-- `applyGravity(state, row, col)` of main.ts: recursive scan of the grid
from the bottom row (`GRID_HEIGHT + 1`) upwards, left to right inside a row.
On the first active block found: if its row equals `GRID_HEIGHT + level` or
the whole piece collides moving down, lock everything via
`makeAllBlocksInactive`; otherwise move the piece down one row and continue
one row higher with the updated canvas (the other state fields kept). -/
def applyGravityAux (s : State) (row col : Int) : State :=
  if _h1 : row < 0 then s
  else if _h2 : col ≥ GRID_WIDTH then applyGravityAux s (row - 1) 0
  else
    match cellAt s.canvas col row with
    | some currBlock =>
      if currBlock.isActive then
        if row = GRID_HEIGHT + (s.level : Int) ∨
            checkCollision s.canvas s.activeBlockPositions ⟨0, 1⟩ then
          makeAllBlocksInactive s
        else
          applyGravityAux { s with canvas := (moveActiveTetromino s ⟨0, 1⟩).canvas }
            (row - 1) col
      else applyGravityAux s row (col + 1)
    | none => applyGravityAux s row (col + 1)
termination_by ((row + 1).toNat, (GRID_WIDTH + 1 - col).toNat)
decreasing_by
  all_goals simp_wf
  all_goals unfold GRID_WIDTH at *
  all_goals first
    | (left; omega)
    | (right; omega)

/-- `applyGravity(state)` with the default arguments
(`row = Constants.GRID_HEIGHT + 1`, `col = 0`). -/
def applyGravity (s : State) : State := applyGravityAux s (GRID_HEIGHT + 1) 0

/-- The game-over branch of the reducer (main.ts): recolour every block grey,
leaving everything else as it is. -/
def greyCanvas (canvas : Canvas) : Canvas :=
  canvas.map (fun row => row.map (fun cell => cell.map (fun b => { b with colour := Colour.grey })))

/-- The top-row test of the reducer's spawn branch (main.ts):
`updatedState.canvas[0].some((block) => block && !block.isActive)`. -/
def topRowOccupied (canvas : Canvas) : Bool :=
  (canvas.headD []).any (fun cell =>
    match cell with
    | some b => !b.isActive
    | none => false)

/-- The spawn branch of the reducer's tick handling (main.ts): runs when a tick
arrives, the game is not over, and no active cell exists.  Line-clear first;
then either set game over (hidden top row holds an inactive block), recording
the current score as the high score, or spawn the next tetromino at `(4, 0)`
and the freshly drawn one into the preview canvas at `(2, 3)`.  The freshly
drawn tetromino (a wall-clock-seeded random draw in the source) is a
parameter. -/
def tickSpawnStep (s : State) (newBlock : Tetromino) : State :=
  let updatedState := checkForTetris s
  if topRowOccupied updatedState.canvas then
    { updatedState with highScore := updatedState.score, gameEnd := true }
  else
    { updatedState with
      canvas := spawnTetromino updatedState.canvas updatedState.nextTetromino 4 0 none,
      previewCanvas := spawnTetromino CanvasInit newBlock 2 3 none,
      activeBlockPositions := updateActiveBlocks updatedState,
      nextTetromino := newBlock }

/-- One tick event through the reducer of main.ts (the `scan` body for an
event that is neither a movement nor a rotation): the game-over branch
recolours everything grey; otherwise with no active cells the spawn branch
runs, else gravity is applied (keeping only its canvas) and the stored
active-position list is recomputed from the pre-gravity state. -/
def reducerTick (s : State) (newBlock : Tetromino) : State :=
  if s.gameEnd then { s with canvas := greyCanvas s.canvas }
  else if (updateActiveBlocks s).length = 0 then tickSpawnStep s newBlock
  else
    { s with
      canvas := (applyGravity s).canvas,
      activeBlockPositions := updateActiveBlocks s }

/-- The square tetromino of tetronimo.ts (used below to build concrete
states). -/
def squareBlock : Tetromino :=
  ⟨[(createBlock Colour.aqua true, 0, 0), (createBlock Colour.aqua true, 1, 0),
    (createBlock Colour.aqua true, 0, 1), (createBlock Colour.aqua true, 1, 1)]⟩

/-- Boolean form of "the canvas holds an active block at `(x, y)`". -/
def isActiveAt (canvas : Canvas) (x y : Int) : Bool :=
  match cellAt canvas x y with
  | some b => b.isActive
  | none => false

/-- Two canvases agree on all inactive (locked) cells. -/
def InactiveAgree (orig c : Canvas) : Prop :=
  ∀ (x y : Int) (b : Block), b.isActive = false →
    (cellAt orig x y = some b ↔ cellAt c x y = some b)

/-- A full row of inactive red blocks (used in the concrete witness states). -/
def inactiveRedRow : List (Option Block) := List.replicate 10 (some (createBlock Colour.red false))

/-- Witness state: empty play field whose bottom row is a completed line. -/
def wstateC1 : State :=
  ⟨List.replicate 21 emptyRow ++ [inactiveRedRow], CanvasInit, [], false, 0, 1, 0, squareBlock⟩

/-- Witness state: two completed lines at the bottom, score 100, level 1. -/
def wstateC2 : State :=
  ⟨List.replicate 20 emptyRow ++ [inactiveRedRow, inactiveRedRow], CanvasInit, [], false,
    100, 1, 0, squareBlock⟩

/-- Witness state: one active block directly above a locked block. -/
def wstateC3 : State :=
  ⟨[some (createBlock Colour.aqua true) :: List.replicate 9 none,
    some (createBlock Colour.red false) :: List.replicate 9 none],
   CanvasInit, [], false, 0, 1, 0, squareBlock⟩

/-- Witness state: a single active block in the hidden top row. -/
def wstateC4 : State :=
  ⟨[some (createBlock Colour.blue true) :: List.replicate 9 none],
   CanvasInit, [], false, 0, 1, 0, squareBlock⟩

/-- Witness state: a single active block resting on the grid floor. -/
def wstateC5 : State :=
  ⟨List.replicate 21 emptyRow ++ [some (createBlock Colour.aqua true) :: List.replicate 9 none],
   CanvasInit, [⟨0, 21⟩], false, 0, 1, 0, squareBlock⟩

/-- Witness state: no active cells, a locked block in the hidden top row, and a
previous high score larger than the current score. -/
def wstateC6 : State :=
  ⟨(some (createBlock Colour.red false) :: List.replicate 9 none) :: List.replicate 21 emptyRow,
   CanvasInit, [], false, 300, 1, 999, squareBlock⟩

/-- Witness canvas for the occupancy rules: row 1 holds a locked block at
column 0, row 2 an active block at column 0. -/
def wcanvasC8 : Canvas :=
  [emptyRow,
   some (createBlock Colour.red false) :: List.replicate 9 none,
   some (createBlock Colour.aqua true) :: List.replicate 9 none]

/-- The rotation pipeline as the specification words it: exact arithmetic-mean
centroid (never rounded), translate to the origin, apply the 90-degree matrix
(clockwise `(x, y) → (y, -x)`, anticlockwise `(x, y) → (-y, x)`), translate
back, and only then round each coordinate to the nearest cell
(half-integers rounding up, as `Math.round` does). -/
def specRotatedPositions (positions : List Pos) (direction : Int) : List Pos :=
  let n : Rat := (positions.length : Rat)
  let cx : Rat := (((positions.map Pt.x).sum : Int) : Rat) / n
  let cy : Rat := (((positions.map Pt.y).sum : Int) : Rat) / n
  positions.map (fun p =>
    let tx : Rat := (p.x : Rat) - cx
    let ty : Rat := (p.y : Rat) - cy
    let r : Pt Rat := if direction = 1 then ⟨ty, -tx⟩ else ⟨-ty, tx⟩
    ⟨jsRound (r.x + cx), jsRound (r.y + cy)⟩)

theorem getElem?_enumFrom_map {α β : Type} (l : List α) (k n : Nat) (g : Nat → α → β) :
    ((l.enumFrom k).map (fun p => g p.1 p.2))[n]? = (l[n]?).map (g (k + n)) := by
  induction l generalizing k n with
  | nil => simp
  | cons a t ih =>
    cases n with
    | zero => simp [List.enumFrom]
    | succ m =>
      have h2 : k + (m + 1) = (k + 1) + m := by omega
      calc ((List.enumFrom k (a :: t)).map fun p => g p.1 p.2)[m + 1]?
          = ((List.enumFrom (k + 1) t).map fun p => g p.1 p.2)[m]? := by
            rw [show List.enumFrom k (a :: t) = (k, a) :: List.enumFrom (k + 1) t from rfl,
              List.map_cons, List.getElem?_cons_succ]
        _ = (t[m]?).map (g ((k + 1) + m)) := ih (k + 1) m
        _ = ((a :: t)[m + 1]?).map (g (k + (m + 1))) := by
            rw [List.getElem?_cons_succ, h2]

theorem getElem?_enum_map {α β : Type} (l : List α) (n : Nat) (g : Nat → α → β) :
    ((l.enum).map (fun p => g p.1 p.2))[n]? = (l[n]?).map (g n) := by
  have h := getElem?_enumFrom_map l 0 n g
  simpa [List.enum] using h

/-- Pointwise description of `setCell`. -/
theorem cellAt_setCell (canvas : Canvas) (v : Option Block) (px py x y : Int) :
    cellAt (setCell canvas v px py) x y =
      if x = px ∧ y = py ∧ validIdx canvas x y then v else cellAt canvas x y := by
  by_cases hxy : 0 ≤ x ∧ 0 ≤ y
  · have houter : (setCell canvas v px py)[y.toNat]? =
        (canvas[y.toNat]?).map (fun row =>
          row.enum.map (fun cellp =>
            if (y.toNat : Int) = py ∧ (cellp.1 : Int) = px then v else cellp.2)) := by
      unfold setCell
      exact getElem?_enum_map canvas y.toNat (fun ri row =>
        row.enum.map (fun cellp => if (ri : Int) = py ∧ (cellp.1 : Int) = px then v else cellp.2))
    cases hrow : canvas[y.toNat]? with
    | none =>
      have hlen : ¬ y.toNat < canvas.length := by
        simpa [List.getElem?_eq_none_iff] using hrow
      have hnot : ¬ (x = px ∧ y = py ∧ validIdx canvas x y) := by
        unfold validIdx; tauto
      rw [if_neg hnot]
      unfold cellAt
      rw [if_pos hxy, if_pos hxy, houter, hrow]
      simp
    | some row =>
      have hlen : y.toNat < canvas.length := (List.getElem?_eq_some_iff.mp hrow).1
      have hinner : (row.enum.map (fun cellp =>
            if (y.toNat : Int) = py ∧ (cellp.1 : Int) = px then v else cellp.2))[x.toNat]? =
          (row[x.toNat]?).map (fun c =>
            if (y.toNat : Int) = py ∧ (x.toNat : Int) = px then v else c) :=
        getElem?_enum_map row x.toNat
          (fun ci c => if (y.toNat : Int) = py ∧ (ci : Int) = px then v else c)
      cases hcell : row[x.toNat]? with
      | none =>
        have hlenx : ¬ x.toNat < row.length := by
          simpa [List.getElem?_eq_none_iff] using hcell
        have hnot : ¬ (x = px ∧ y = py ∧ validIdx canvas x y) := by
          unfold validIdx
          rw [hrow]
          intro h
          exact hlenx h.2.2.2.2.2
        rw [if_neg hnot]
        unfold cellAt
        rw [if_pos hxy, if_pos hxy, houter, hrow]
        simp only [Option.map_some', Option.getD_some]
        rw [hinner, hcell]
        simp
      | some cell =>
        by_cases hit : x = px ∧ y = py
        · have hyi : (y.toNat : Int) = py := by omega
          have hxi : (x.toNat : Int) = px := by omega
          have hv : x = px ∧ y = py ∧ validIdx canvas x y := by
            refine ⟨hit.1, hit.2, hxy.1, hxy.2, hlen, ?_⟩
            rw [hrow]
            exact (List.getElem?_eq_some_iff.mp hcell).1
          rw [if_pos hv]
          unfold cellAt
          rw [if_pos hxy, houter, hrow]
          simp only [Option.map_some', Option.getD_some]
          rw [hinner, hcell]
          simp [hyi, hxi]
        · have hnot : ¬ (x = px ∧ y = py ∧ validIdx canvas x y) := by tauto
          have hmiss : ¬ ((y.toNat : Int) = py ∧ (x.toNat : Int) = px) := by
            intro h; exact hit ⟨by omega, by omega⟩
          rw [if_neg hnot]
          unfold cellAt
          rw [if_pos hxy, if_pos hxy, houter, hrow]
          simp only [Option.map_some', Option.getD_some]
          rw [hinner, hcell]
          simp only [Option.map_some', Option.getD_some]
          rw [if_neg hmiss]
  · have hnot : ¬ (x = px ∧ y = py ∧ validIdx canvas x y) := by
      unfold validIdx; tauto
    unfold cellAt
    rw [if_neg hnot, if_neg hxy, if_neg hxy]

theorem cellAt_some_validIdx {canvas : Canvas} {x y : Int} {b : Block}
    (h : cellAt canvas x y = some b) : validIdx canvas x y := by
  unfold cellAt at h
  by_cases hxy : 0 ≤ x ∧ 0 ≤ y
  · simp only [hxy, if_true] at h
    refine ⟨hxy.1, hxy.2, ?_, ?_⟩
    · by_contra hlen
      have hrow : canvas[y.toNat]? = none := by
        simpa [List.getElem?_eq_none_iff] using Nat.le_of_not_lt hlen
      rw [hrow] at h
      simp at h
    · by_contra hlen
      have hcell : ((canvas[y.toNat]?).getD [])[x.toNat]? = none := by
        simpa [List.getElem?_eq_none_iff] using Nat.le_of_not_lt hlen
      rw [hcell] at h
      simp at h
  · simp [hxy] at h

theorem foldl_filterMap_append {α β : Type} (f : α → Option β) (l : List α) (acc : List β) :
    l.foldl (fun a x => match f x with | some b => a ++ [b] | none => a) acc
      = acc ++ l.filterMap f := by
  induction l generalizing acc with
  | nil => simp
  | cons x t ih =>
    cases hfx : f x with
    | none => simp [List.foldl_cons, hfx, ih, List.filterMap_cons]
    | some b => simp [List.foldl_cons, hfx, ih, List.filterMap_cons]

theorem foldl_append_bind {α β : Type} (g : α → List β) (l : List α) (acc : List β) :
    l.foldl (fun a x => a ++ g x) acc = acc ++ l.flatMap g := by
  induction l generalizing acc with
  | nil => simp
  | cons x t ih => simp [List.foldl_cons, ih]

theorem activeBlocksOf_eq_bind (canvas : Canvas) :
    activeBlocksOf canvas = canvas.enum.flatMap (fun rowp => rowActives rowp.1 rowp.2) := by
  unfold activeBlocksOf
  have hrow : ∀ (acc : List Pos) (rowp : Nat × List (Option Block)),
      rowp.2.enum.foldl (fun acc2 cellp =>
        match cellp.2 with
        | some b => if b.isActive then acc2 ++ [⟨(cellp.1 : Int), (rowp.1 : Int)⟩] else acc2
        | none => acc2) acc = acc ++ rowActives rowp.1 rowp.2 := by
    intro acc rowp
    have h := foldl_filterMap_append (fun cellp : Nat × Option Block =>
      match cellp.2 with
      | some b => if b.isActive then some (⟨(cellp.1 : Int), (rowp.1 : Int)⟩ : Pos) else none
      | none => none) rowp.2.enum acc
    unfold rowActives
    rw [← h]
    apply List.foldl_ext
    intro a cellp _
    cases hc : cellp.2 with
    | none => simp
    | some b =>
      by_cases hb : b.isActive <;> simp [hb]
  have h2 : canvas.enum.foldl (fun acc rowp =>
      rowp.2.enum.foldl (fun acc2 cellp =>
        match cellp.2 with
        | some b => if b.isActive then acc2 ++ [⟨(cellp.1 : Int), (rowp.1 : Int)⟩] else acc2
        | none => acc2) acc) []
      = canvas.enum.foldl (fun acc rowp => acc ++ rowActives rowp.1 rowp.2) [] := by
    apply List.foldl_ext
    intro a rowp _
    exact hrow a rowp
  rw [h2, foldl_append_bind]
  simp

/-- Membership characterisation of the active-block scan: a position is
collected exactly when the canvas holds an active block there. -/
theorem mem_activeBlocksOf {canvas : Canvas} {p : Pos} :
    p ∈ activeBlocksOf canvas ↔
      ∃ b, cellAt canvas p.x p.y = some b ∧ b.isActive = true := by
  rw [activeBlocksOf_eq_bind]
  constructor
  · intro hp
    obtain ⟨rowp, hrowp, hmem⟩ := List.mem_flatMap.mp hp
    obtain ⟨cellp, hcellp, hf⟩ := List.mem_filterMap.mp hmem
    cases hc : cellp.2 with
    | none => rw [hc] at hf; simp at hf
    | some b =>
      rw [hc] at hf
      by_cases hb : b.isActive
      · simp only [hb, if_true, Option.some_inj] at hf
        subst hf
        obtain ⟨ri, row⟩ := rowp
        obtain ⟨ci, cell⟩ := cellp
        have hrow : canvas[ri]? = some row := by
          have := List.mk_mem_enum_iff_getElem?.mp hrowp
          simpa using this
        have hcell : row[ci]? = some cell := by
          have := List.mk_mem_enum_iff_getElem?.mp hcellp
          simpa using this
        refine ⟨b, ?_, hb⟩
        simp only at hc
        subst hc
        unfold cellAt
        have h0 : (0:Int) ≤ (ci : Int) ∧ (0:Int) ≤ (ri : Int) := by
          constructor <;> exact_mod_cast Nat.zero_le _
        rw [if_pos h0]
        simp only [Int.toNat_natCast]
        rw [hrow]
        simp [hcell]
      · simp [hb] at hf
  · rintro ⟨b, hb, hactive⟩
    have hv := cellAt_some_validIdx hb
    obtain ⟨hx0, hy0, hylen, hxlen⟩ := hv
    unfold cellAt at hb
    rw [if_pos ⟨hx0, hy0⟩] at hb
    cases hrow : canvas[p.y.toNat]? with
    | none =>
      exfalso
      have : ¬ p.y.toNat < canvas.length := by
        simpa [List.getElem?_eq_none_iff] using hrow
      exact this hylen
    | some row =>
      rw [hrow] at hb hxlen
      simp only [Option.getD_some] at hb hxlen
      cases hcell : row[p.x.toNat]? with
      | none =>
        exfalso
        rw [hcell] at hb
        simp at hb
      | some cell =>
        rw [hcell] at hb
        simp only [Option.getD_some] at hb
        apply List.mem_flatMap.mpr
        refine ⟨(p.y.toNat, row), List.mk_mem_enum_iff_getElem?.mpr (by simpa using hrow), ?_⟩
        apply List.mem_filterMap.mpr
        refine ⟨(p.x.toNat, cell), List.mk_mem_enum_iff_getElem?.mpr (by simpa using hcell), ?_⟩
        simp only
        rw [hb]
        simp only [hactive, if_true]
        have hx : ((p.x.toNat : Int)) = p.x := Int.toNat_of_nonneg hx0
        have hy : ((p.y.toNat : Int)) = p.y := Int.toNat_of_nonneg hy0
        rw [hx, hy]

theorem foldl_or_any {α : Type} (g : α → Bool) (l : List α) (acc : Bool) :
    l.foldl (fun a x => a || g x) acc = (acc || l.any g) := by
  induction l generalizing acc with
  | nil => simp
  | cons x t ih => simp [List.foldl_cons, ih, Bool.or_assoc]

/-- `checkCollision` is the disjunction of the per-cell contributions: the
whole-piece check collides exactly when some member cell does. -/
theorem checkCollision_eq_any (canvas : Canvas) (blocks : List Pos) (direction : Pos) :
    checkCollision canvas blocks direction = blocks.any (collidesCell canvas direction) := by
  unfold checkCollision
  have hext : blocks.foldl (fun acc block =>
      if direction.y + block.y ≥ GRID_HEIGHT + 2 ∨ direction.y + block.y ≤ 0 then true
      else if (cellAt canvas (direction.x + block.x) (direction.y + block.y)).isSome
          ∨ direction.x + block.x < 0 ∨ direction.x + block.x ≥ GRID_WIDTH then
        if (match cellAt canvas (direction.x + block.x) (direction.y + block.y) with
            | some b => b.isActive
            | none => false) then acc
        else true
      else acc) false
      = blocks.foldl (fun acc block => acc || collidesCell canvas direction block) false := by
    apply List.foldl_ext
    intro acc block _
    unfold collidesCell
    by_cases h1 : direction.y + block.y ≥ GRID_HEIGHT + 2 ∨ direction.y + block.y ≤ 0
    · simp [h1]
    · by_cases h2 : (cellAt canvas (direction.x + block.x) (direction.y + block.y)).isSome
          ∨ direction.x + block.x < 0 ∨ direction.x + block.x ≥ GRID_WIDTH
      · cases hc : cellAt canvas (direction.x + block.x) (direction.y + block.y) with
        | none => cases acc <;> simp [h1, h2, hc]
        | some b =>
          by_cases hb : b.isActive <;> cases acc <;> simp [h1, h2, hc, hb]
      · cases acc <;> simp [h1, h2]
  rw [hext, foldl_or_any]
  simp

/-- `checkCollision` in existential form. -/
theorem checkCollision_true_iff (canvas : Canvas) (blocks : List Pos) (direction : Pos) :
    checkCollision canvas blocks direction = true ↔
      ∃ block ∈ blocks, collidesCell canvas direction block = true := by
  rw [checkCollision_eq_any]
  simp [List.any_eq_true]

theorem isActiveAt_iff {canvas : Canvas} {x y : Int} :
    isActiveAt canvas x y = true ↔
      ∃ b, cellAt canvas x y = some b ∧ b.isActive = true := by
  unfold isActiveAt
  cases h : cellAt canvas x y with
  | none => simp
  | some b => simp

theorem cellAt_invalid {canvas : Canvas} {x y : Int}
    (h : ¬ validIdx canvas x y) : cellAt canvas x y = none := by
  cases hc : cellAt canvas x y with
  | none => rfl
  | some b => exact absurd (cellAt_some_validIdx hc) h

/-- `removeBlockFromCanvas` pointwise (an out-of-range target makes no
difference since the cell there reads `none` anyway). -/
theorem cellAt_removeBlock (canvas : Canvas) (px py x y : Int) :
    cellAt (removeBlockFromCanvas canvas px py) x y =
      if x = px ∧ y = py then none else cellAt canvas x y := by
  unfold removeBlockFromCanvas
  rw [cellAt_setCell]
  by_cases hit : x = px ∧ y = py
  · by_cases hv : validIdx canvas x y
    · rw [if_pos ⟨hit.1, hit.2, hv⟩, if_pos hit]
    · rw [if_neg (by tauto), if_pos hit]
      exact cellAt_invalid hv
  · rw [if_neg (by tauto), if_neg hit]

/-- `addBlockToCanvas` pointwise. -/
theorem cellAt_addBlock (canvas : Canvas) (v : Option Block) (px py x y : Int) :
    cellAt (addBlockToCanvas canvas v px py) x y =
      if x = px ∧ y = py ∧ validIdx canvas x y then v else cellAt canvas x y := by
  unfold addBlockToCanvas
  exact cellAt_setCell canvas v px py x y

theorem length_setCell (canvas : Canvas) (v : Option Block) (px py : Int) :
    (setCell canvas v px py).length = canvas.length := by
  unfold setCell
  simp [List.enum_length]

theorem getElem?_setCell (canvas : Canvas) (v : Option Block) (px py : Int) (n : Nat) :
    (setCell canvas v px py)[n]? = (canvas[n]?).map (fun row =>
      row.enum.map (fun cellp =>
        if (n : Int) = py ∧ (cellp.1 : Int) = px then v else cellp.2)) := by
  unfold setCell
  exact getElem?_enum_map canvas n (fun ri row =>
    row.enum.map (fun cellp => if (ri : Int) = py ∧ (cellp.1 : Int) = px then v else cellp.2))

theorem rowLength_setCell (canvas : Canvas) (v : Option Block) (px py : Int) (n : Nat) :
    (((setCell canvas v px py)[n]?).getD []).length = ((canvas[n]?).getD []).length := by
  rw [getElem?_setCell]
  cases canvas[n]? with
  | none => rfl
  | some row => simp [List.enum_length]

theorem validIdx_setCell (canvas : Canvas) (v : Option Block) (px py x y : Int) :
    validIdx (setCell canvas v px py) x y ↔ validIdx canvas x y := by
  unfold validIdx
  rw [length_setCell, rowLength_setCell]

/-- Removing a list of positions, pointwise. -/
theorem cellAt_foldl_remove (canvas : Canvas) (L : List Pos) (x y : Int) :
    cellAt (L.foldl (fun cv p => removeBlockFromCanvas cv p.x p.y) canvas) x y =
      if (⟨x, y⟩ : Pos) ∈ L then none else cellAt canvas x y := by
  induction L generalizing canvas with
  | nil => simp
  | cons p t ih =>
    rw [List.foldl_cons, ih, cellAt_removeBlock]
    by_cases hmem : (⟨x, y⟩ : Pos) ∈ t
    · simp [hmem]
    · have hiff : ((⟨x, y⟩ : Pos) = p) ↔ (x = p.x ∧ y = p.y) := by
        constructor
        · intro h; rw [← h]; exact ⟨rfl, rfl⟩
        · intro h; cases p; simp at h ⊢; exact ⟨h.1, h.2⟩
      by_cases heq : x = p.x ∧ y = p.y
      · simp [hmem, hiff, heq]
      · simp [hmem, hiff, heq]

theorem mem_activeBlocksOf_iff {canvas : Canvas} {p : Pos} :
    p ∈ activeBlocksOf canvas ↔ isActiveAt canvas p.x p.y = true := by
  rw [mem_activeBlocksOf, isActiveAt_iff]

/-- The canvas built at the start of `rotateTetromino`, pointwise: active
cells erased, everything else untouched. -/
theorem cellAt_removedActiveCanvas (s : State) (x y : Int) :
    cellAt (removedActiveCanvas s) x y =
      if isActiveAt s.canvas x y = true then none else cellAt s.canvas x y := by
  unfold removedActiveCanvas updateActiveBlocks
  rw [cellAt_foldl_remove]
  have : ((⟨x, y⟩ : Pos) ∈ activeBlocksOf s.canvas) ↔ isActiveAt s.canvas x y = true := by
    rw [mem_activeBlocksOf_iff]
  by_cases h : isActiveAt s.canvas x y = true
  · simp [this, h]
  · simp [this, h]

theorem inactiveAgree_refl (c : Canvas) : InactiveAgree c c := by
  intro x y b _
  exact Iff.rfl

/-- A `moveBlock` step whose source cell currently holds no inactive block
(it holds an active block, or nothing) preserves all inactive cells of the
original canvas. -/
theorem moveBlock_inactiveAgree (orig c : Canvas) (px py nx ny : Int)
    (hsrc : ∀ b : Block, b.isActive = false → cellAt c px py ≠ some b)
    (hagree : InactiveAgree orig c) :
    InactiveAgree orig (moveBlock c px py nx ny) := by
  unfold moveBlock
  by_cases h1 : nx < 0 ∨ nx ≥ GRID_WIDTH ∨ ny < 0 ∨ ny ≥ GRID_HEIGHT + 2
  · rw [if_pos h1]; exact hagree
  · rw [if_neg h1]
    by_cases h2 : 0 ≤ nx ∧ nx < GRID_WIDTH ∧ (cellAt c nx ny).isNone
    · rw [if_pos h2]
      intro x y b hb
      rw [cellAt_addBlock, cellAt_removeBlock]
      by_cases hdest : x = nx ∧ y = ny ∧ validIdx (removeBlockFromCanvas c px py) x y
      · rw [if_pos hdest]
        constructor
        · intro horig
          exfalso
          have hc : cellAt c x y = some b := (hagree x y b hb).mp horig
          have : (cellAt c nx ny).isNone = true := h2.2.2
          rw [hdest.1, hdest.2.1] at hc
          rw [hc] at this
          simp at this
        · intro hres
          exfalso
          exact hsrc b hb (by rw [← hres])
      · rw [if_neg hdest]
        by_cases hsrcpos : x = px ∧ y = py
        · rw [if_pos hsrcpos]
          constructor
          · intro horig
            exfalso
            have hc : cellAt c x y = some b := (hagree x y b hb).mp horig
            rw [hsrcpos.1, hsrcpos.2] at hc
            exact hsrc b hb hc
          · intro h; exact absurd h (by simp)
        · rw [if_neg hsrcpos]
          exact hagree x y b hb
    · rw [if_neg h2]; exact hagree

/-- Folding the guarded `moveBlock` step of `moveActiveTetromino` over any list
of positions that were active in the original canvas preserves all inactive
cells. -/
theorem foldl_move_inactiveAgree (orig : Canvas) (M : List Pos) (d : Pos)
    (L : List Pos) (c : Canvas)
    (hL : ∀ p ∈ L, isActiveAt orig p.x p.y = true)
    (hagree : InactiveAgree orig c) :
    InactiveAgree orig (L.foldl (fun cv pos =>
      if checkCollision cv M d then cv
      else moveBlock cv pos.x pos.y (pos.x + d.x) (pos.y + d.y)) c) := by
  induction L generalizing c with
  | nil => exact hagree
  | cons p t ih =>
    rw [List.foldl_cons]
    refine ih _ (fun q hq => hL q (List.mem_cons_of_mem p hq)) ?_
    by_cases hchk : checkCollision c M d
    · rw [if_pos hchk]; exact hagree
    · rw [if_neg hchk]
      apply moveBlock_inactiveAgree orig c p.x p.y _ _ _ hagree
      intro b hb hcell
      have horig : cellAt orig p.x p.y = some b := (hagree p.x p.y b hb).mpr hcell
      have hact := hL p (List.mem_cons_self p t)
      rw [isActiveAt_iff] at hact
      obtain ⟨b', hb', hact'⟩ := hact
      rw [horig] at hb'
      cases hb'
      rw [hact'] at hb
      cases hb

/-- `moveActiveTetromino` never disturbs an inactive cell. -/
theorem moveActiveTetromino_inactiveAgree (s : State) (d : Pos) :
    InactiveAgree s.canvas (moveActiveTetromino s d).canvas := by
  unfold moveActiveTetromino
  by_cases h1 : (updateActiveBlocks s).length > 0 ∧ d.x < 0
  · rw [if_pos h1]
    apply foldl_move_inactiveAgree s.canvas (updateActiveBlocks s) d
      (updateActiveBlocks s) s.canvas
    · intro p hp
      exact mem_activeBlocksOf_iff.mp hp
    · exact inactiveAgree_refl s.canvas
  · rw [if_neg h1]
    by_cases h2 : (updateActiveBlocks s).length > 0 ∧ (d.x > 0 ∨ d.y > 0)
    · rw [if_pos h2]
      apply foldl_move_inactiveAgree s.canvas (updateActiveBlocks s) d
        (updateActiveBlocks s).reverse s.canvas
      · intro p hp
        exact mem_activeBlocksOf_iff.mp (List.mem_reverse.mp hp)
      · exact inactiveAgree_refl s.canvas
    · rw [if_neg h2]
      exact inactiveAgree_refl s.canvas

theorem collidesCell_zero_not_inactive (canvas : Canvas) (p : Pos)
    (h : collidesCell canvas ⟨0, 0⟩ p = false) (b : Block)
    (hb : b.isActive = false) : cellAt canvas p.x p.y ≠ some b := by
  intro hcell
  unfold collidesCell at h
  dsimp only at h
  rw [zero_add, zero_add] at h
  by_cases hy : p.y ≥ GRID_HEIGHT + 2 ∨ p.y ≤ 0
  · rw [if_pos hy] at h
    cases h
  · rw [if_neg hy] at h
    rw [hcell] at h
    simp only [Option.isSome_some, true_or, if_true] at h
    simp [hb] at h

/-- Removing the active cells does not change the verdict of the collision
detector on any block list: an active cell at a destination is already treated
as free by `checkCollision`, and an erased cell is free outright.  (Requires
the grid-shape invariant so that a stored cell's column is inside
`[0, GRID_WIDTH)`.) -/
theorem collidesCell_removedActive (s : State) (d p : Pos)
    (hw : ∀ row ∈ s.canvas, row.length = GRID_WIDTH.toNat) :
    collidesCell (removedActiveCanvas s) d p = collidesCell s.canvas d p := by
  unfold collidesCell
  by_cases hy : d.y + p.y ≥ GRID_HEIGHT + 2 ∨ d.y + p.y ≤ 0
  · rw [if_pos hy, if_pos hy]
  · rw [if_neg hy, if_neg hy]
    have hrm := cellAt_removedActiveCanvas s (d.x + p.x) (d.y + p.y)
    cases hcell : cellAt s.canvas (d.x + p.x) (d.y + p.y) with
    | none =>
      have hrm' : cellAt (removedActiveCanvas s) (d.x + p.x) (d.y + p.y) = none := by
        rw [hrm, hcell]
        split <;> rfl
      rw [hrm']
    | some blk =>
      by_cases hact : blk.isActive = true
      · have hrm' : cellAt (removedActiveCanvas s) (d.x + p.x) (d.y + p.y) = none := by
          rw [hrm, if_pos (isActiveAt_iff.mpr ⟨blk, hcell, hact⟩)]
        obtain ⟨hx0, hy0, hylen, hxlen⟩ := cellAt_some_validIdx hcell
        have hrow : ((s.canvas[(d.y + p.y).toNat]?).getD []) ∈ s.canvas := by
          cases hr : s.canvas[(d.y + p.y).toNat]? with
          | none =>
            exfalso
            have : ¬ (d.y + p.y).toNat < s.canvas.length := by
              simpa [List.getElem?_eq_none_iff] using hr
            exact this hylen
          | some r =>
            simp only [Option.getD_some]
            exact List.getElem?_mem hr
        have hwlen := hw _ hrow
        have hxW : d.x + p.x < GRID_WIDTH := by
          rw [hwlen] at hxlen
          unfold GRID_WIDTH at *
          omega
        rw [hrm']
        have hnc : ¬ ((none : Option Block).isSome = true ∨ d.x + p.x < 0 ∨
            d.x + p.x ≥ GRID_WIDTH) := by
          simp only [Option.isSome_none, Bool.false_eq_true, false_or, not_or, not_lt, not_le]
          exact ⟨hx0, hxW⟩
        rw [if_neg hnc, if_pos (Or.inl (by simp))]
        simp [hact]
      · have hrm' : cellAt (removedActiveCanvas s) (d.x + p.x) (d.y + p.y) = some blk := by
          rw [hrm, if_neg, hcell]
          rw [isActiveAt_iff]
          rintro ⟨b', hb', ha'⟩
          rw [hcell] at hb'
          cases hb'
          exact hact ha'
        rw [hrm']

theorem checkCollision_removedActive (s : State) (blocks : List Pos) (d : Pos)
    (hw : ∀ row ∈ s.canvas, row.length = GRID_WIDTH.toNat) :
    checkCollision (removedActiveCanvas s) blocks d = checkCollision s.canvas blocks d := by
  rw [checkCollision_eq_any, checkCollision_eq_any]
  induction blocks with
  | nil => rfl
  | cons p t ih =>
    simp only [List.any_cons, ih]
    rw [collidesCell_removedActive s d p hw]

/-- Writing an active block over a cell that held no inactive block in the
original canvas preserves all inactive cells. -/
theorem addActive_inactiveAgree (orig c : Canvas) (blk : Block) (px py : Int)
    (hblk : blk.isActive = true)
    (hdest : ∀ b : Block, b.isActive = false → cellAt orig px py ≠ some b)
    (hagree : InactiveAgree orig c) :
    InactiveAgree orig (addBlockToCanvas c (some blk) px py) := by
  intro x y b hb
  rw [cellAt_addBlock]
  by_cases hit : x = px ∧ y = py ∧ validIdx c x y
  · rw [if_pos hit]
    constructor
    · intro horig
      exfalso
      rw [hit.1, hit.2.1] at horig
      exact hdest b hb horig
    · intro hres
      exfalso
      injection hres with h
      rw [← h, hblk] at hb
      cases hb
  · rw [if_neg hit]
    exact hagree x y b hb

theorem foldl_spawn_inactiveAgree (orig : Canvas) (colour : Option Colour) (x0 y0 : Int)
    (L : List (Block × Int × Int)) (c : Canvas)
    (hpos : ∀ blk ∈ L, ∀ b : Block, b.isActive = false →
      cellAt orig (blk.2.1 + x0) (blk.2.2 + y0) ≠ some b)
    (hagree : InactiveAgree orig c) :
    InactiveAgree orig (L.foldl (fun acc blk =>
      addBlockToCanvas acc (some (createBlock (colour.getD blk.1.colour) true))
        (blk.2.1 + x0) (blk.2.2 + y0)) c) := by
  induction L generalizing c with
  | nil => exact hagree
  | cons blk t ih =>
    rw [List.foldl_cons]
    refine ih _ (fun q hq => hpos q (List.mem_cons_of_mem blk hq)) ?_
    exact addActive_inactiveAgree orig c _ _ _ rfl
      (hpos blk (List.mem_cons_self blk t)) hagree

theorem spawnTetromino_inactiveAgree (orig c : Canvas) (t : Tetromino) (x0 y0 : Int)
    (colour : Option Colour)
    (hpos : ∀ blk ∈ t.blocks, ∀ b : Block, b.isActive = false →
      cellAt orig (blk.2.1 + x0) (blk.2.2 + y0) ≠ some b)
    (hagree : InactiveAgree orig c) :
    InactiveAgree orig (spawnTetromino c t x0 y0 colour) := by
  unfold spawnTetromino
  exact foldl_spawn_inactiveAgree orig colour x0 y0 t.blocks c hpos hagree

theorem removedActiveCanvas_inactiveAgree (s : State) :
    InactiveAgree s.canvas (removedActiveCanvas s) := by
  intro x y b hb
  rw [cellAt_removedActiveCanvas]
  by_cases hact : isActiveAt s.canvas x y = true
  · rw [if_pos hact]
    constructor
    · intro horig
      exfalso
      rw [isActiveAt_iff] at hact
      obtain ⟨b', hb', ha'⟩ := hact
      rw [horig] at hb'
      cases hb'
      rw [ha'] at hb
      cases hb
    · intro h
      cases h
  · rw [if_neg hact]

/-- `rotateTetromino` never disturbs an inactive cell. -/
theorem rotateTetromino_inactiveAgree (s : State) (direction : Int) :
    InactiveAgree s.canvas (rotateTetromino s direction).canvas := by
  unfold rotateTetromino
  by_cases h0 : (updateActiveBlocks s).length = 0
  · rw [if_pos h0]
    exact inactiveAgree_refl s.canvas
  · rw [if_neg h0]
    by_cases hcol : checkCollision s.canvas
        (rotatedPositions (updateActiveBlocks s) direction) ⟨0, 0⟩
    · rw [if_pos hcol]
      exact inactiveAgree_refl s.canvas
    · rw [if_neg hcol]
      have hfalse : ∀ p ∈ rotatedPositions (updateActiveBlocks s) direction,
          collidesCell s.canvas ⟨0, 0⟩ p = false := by
        intro p hp
        cases hcc : collidesCell s.canvas ⟨0, 0⟩ p with
        | false => rfl
        | true =>
          exact absurd ((checkCollision_true_iff _ _ _).mpr ⟨p, hp, hcc⟩) hcol
      apply spawnTetromino_inactiveAgree s.canvas (removedActiveCanvas s) _ 0 0 none
      · intro blk hblk b hb
        obtain ⟨q, hq, hblk_eq⟩ := List.mem_map.mp hblk
        rw [← hblk_eq]
        simp only [add_zero]
        exact collidesCell_zero_not_inactive s.canvas q (hfalse q hq) b hb
      · exact removedActiveCanvas_inactiveAgree s

theorem cellAt_makeAllBlocksInactive (s : State) (x y : Int) :
    cellAt (makeAllBlocksInactive s).canvas x y =
      (cellAt s.canvas x y).map (fun b => { b with isActive := false }) := by
  unfold makeAllBlocksInactive cellAt
  dsimp only
  by_cases hxy : 0 ≤ x ∧ 0 ≤ y
  · rw [if_pos hxy, if_pos hxy, List.getElem?_map]
    cases s.canvas[y.toNat]? with
    | none => simp
    | some row =>
      simp only [Option.map_some', Option.getD_some]
      rw [List.getElem?_map]
      cases row[x.toNat]? with
      | none => simp
      | some cell => cases cell <;> simp
  · rw [if_neg hxy, if_neg hxy]
    simp

theorem makeAllBlocksInactive_no_active (s : State) (x y : Int) (b : Block)
    (h : cellAt (makeAllBlocksInactive s).canvas x y = some b) :
    b.isActive = false := by
  rw [cellAt_makeAllBlocksInactive] at h
  cases hc : cellAt s.canvas x y with
  | none => rw [hc] at h; cases h
  | some b0 =>
    rw [hc] at h
    simp only [Option.map_some', Option.some_inj] at h
    rw [← h]

/-- The gravity scan locks the whole piece: when the stored active-position
set collides with the downward delta, the scan returns
`makeAllBlocksInactive` as soon as it reaches any active cell in its
remaining range. -/
theorem applyGravityAux_locks :
    ∀ (s : State) (row col : Int),
      checkCollision s.canvas s.activeBlockPositions ⟨0, 1⟩ = true →
      (∃ r c, 0 ≤ r ∧ 0 ≤ c ∧ c < GRID_WIDTH ∧
        (r < row ∨ (r = row ∧ col ≤ c)) ∧ isActiveAt s.canvas c r = true) →
      applyGravityAux s row col = makeAllBlocksInactive s := by
  intro s row col
  induction s, row, col using applyGravityAux.induct with
  | case1 s row col h1 =>
    intro _ hex
    exfalso
    obtain ⟨r, c, hr0, hc0, hcW, hrc, _⟩ := hex
    omega
  | case2 s row col h1 h2 ih =>
    intro hcol hex
    unfold applyGravityAux
    rw [dif_neg h1, dif_pos h2]
    obtain ⟨r, c, hr0, hc0, hcW, hrc, hact⟩ := hex
    exact ih hcol ⟨r, c, hr0, hc0, hcW, by unfold GRID_WIDTH at *; omega, hact⟩
  | case3 s row col h1 h2 b hcell hbact hcond =>
    intro _ _
    unfold applyGravityAux
    rw [dif_neg h1, dif_neg h2, hcell]
    simp only [hbact, if_true, hcond, if_pos]
  | case4 s row col h1 h2 b hcell hbact hncond ih =>
    intro hcol _
    exact absurd (Or.inr hcol) hncond
  | case5 s row col h1 h2 b hcell hbnact ih =>
    intro hcol hex
    unfold applyGravityAux
    rw [dif_neg h1, dif_neg h2, hcell]
    have hbf : b.isActive = false := by
      cases hbb : b.isActive with
      | false => rfl
      | true => exact absurd hbb hbnact
    dsimp only
    rw [hbf]
    simp only [Bool.false_eq_true, if_false]
    obtain ⟨r, c, hr0, hc0, hcW, hrc, hact⟩ := hex
    by_cases heq : r = row ∧ c = col
    · exfalso
      have : isActiveAt s.canvas col row = true := by
        rw [← heq.1, ← heq.2]
        exact hact
      unfold isActiveAt at this
      rw [hcell] at this
      simp [hbf] at this
    · refine ih hcol ⟨r, c, hr0, hc0, hcW, ?_, hact⟩
      have : ¬ (r = row ∧ c = col) := heq
      omega
  | case6 s row col h1 h2 hcell ih =>
    intro hcol hex
    unfold applyGravityAux
    rw [dif_neg h1, dif_neg h2, hcell]
    dsimp only
    obtain ⟨r, c, hr0, hc0, hcW, hrc, hact⟩ := hex
    by_cases heq : r = row ∧ c = col
    · exfalso
      have : isActiveAt s.canvas col row = true := by
        rw [← heq.1, ← heq.2]
        exact hact
      unfold isActiveAt at this
      rw [hcell] at this
      simp at this
    · refine ih hcol ⟨r, c, hr0, hc0, hcW, ?_, hact⟩
      have : ¬ (r = row ∧ c = col) := heq
      omega

theorem collidesCell_of_boundary (canvas : Canvas) (d p : Pos)
    (h : d.y + p.y ≥ GRID_HEIGHT + 2 ∨ d.y + p.y ≤ 0) :
    collidesCell canvas d p = true := by
  unfold collidesCell
  rw [if_pos h]

theorem checkCollision_singleton (canvas : Canvas) (b : Pos) (d : Pos) :
    checkCollision canvas [b] d = collidesCell canvas d b := by
  rw [checkCollision_eq_any]
  simp [List.any_cons]

/-- When the whole-set collision check is already positive on the starting
canvas, the per-cell fold of `moveActiveTetromino` is the identity. -/
theorem foldl_move_blocked (c : Canvas) (M L : List Pos) (d : Pos)
    (hcol : checkCollision c M d = true) :
    L.foldl (fun cv pos =>
      if checkCollision cv M d then cv
      else moveBlock cv pos.x pos.y (pos.x + d.x) (pos.y + d.y)) c = c := by
  induction L with
  | nil => rfl
  | cons p t ih =>
    rw [List.foldl_cons, if_pos hcol]
    exact ih

/-- C1: the spec claims `checkForTetris` keeps the total row count
(`GRID_HEIGHT + 2` rows).  The code violates this: on a grid with one
completed row the result has 23 rows — the reduce already re-inserts one empty
row per cleared row at the top, and the function then appends `rowsReplaced`
further empty rows at the bottom.  Evaluation of the code at the failing
input. -/
theorem claim1_rowcount_failure :
    wstateC1.canvas.length = 22 ∧
    (wstateC1.canvas.filter (fun row => isTetrisRow row)).length = 1 ∧
    (checkForTetris wstateC1).canvas.length = 23 := by
  constructor
  · rfl
  · constructor <;> rfl

/-- C2: with exactly `k` completed rows, `checkForTetris` adds
`k * (100 * level / 2)` to the score, using the pre-pass level for every one
of the `k` rows, and recomputes the level as `floor(newScore / 500) + 1`. -/
theorem claim2_score_level (s : State) (k : Nat)
    (h : k = (s.canvas.filter (fun row => isTetrisRow row)).length) :
    (checkForTetris s).score = s.score + k * (100 * s.level / 2) ∧
    (checkForTetris s).level = (checkForTetris s).score / 500 + 1 := by
  subst h
  constructor <;> rfl

theorem claim2_witness :
    (2 = (wstateC2.canvas.filter (fun row => isTetrisRow row)).length) ∧
    ((checkForTetris wstateC2).score = wstateC2.score + 2 * (100 * wstateC2.level / 2) ∧
     (checkForTetris wstateC2).level = (checkForTetris wstateC2).score / 500 + 1) :=
  ⟨by decide, claim2_score_level wstateC2 2 (by decide)⟩

/-- C3: for each of the three movement directions, when the whole-set
collision check is positive on the current grid, `moveActiveTetromino`
returns a state with the same grid and the same (recomputed) active-position
set — no partial motion. -/
theorem claim3_all_or_nothing (s : State) (d : Pos)
    (hd : d = ⟨-1, 0⟩ ∨ d = ⟨1, 0⟩ ∨ d = ⟨0, 1⟩)
    (hne : updateActiveBlocks s ≠ [])
    (hcol : checkCollision s.canvas (updateActiveBlocks s) d = true) :
    (moveActiveTetromino s d).canvas = s.canvas ∧
    (moveActiveTetromino s d).activeBlockPositions = updateActiveBlocks s := by
  have hlen : (updateActiveBlocks s).length > 0 := List.length_pos.mpr hne
  unfold moveActiveTetromino
  rcases hd with h | h | h <;> subst h
  · rw [if_pos ⟨hlen, by norm_num⟩]
    rw [foldl_move_blocked s.canvas (updateActiveBlocks s) (updateActiveBlocks s) _ hcol]
    exact ⟨rfl, rfl⟩
  · rw [if_neg (by intro hc; exact absurd hc.2 (by norm_num)),
      if_pos ⟨hlen, Or.inl (by norm_num)⟩]
    rw [foldl_move_blocked s.canvas (updateActiveBlocks s) (updateActiveBlocks s).reverse _ hcol]
    exact ⟨rfl, rfl⟩
  · rw [if_neg (by intro hc; exact absurd hc.2 (by norm_num)),
      if_pos ⟨hlen, Or.inr (by norm_num)⟩]
    rw [foldl_move_blocked s.canvas (updateActiveBlocks s) (updateActiveBlocks s).reverse _ hcol]
    exact ⟨rfl, rfl⟩

theorem claim3_witness :
    (moveActiveTetromino wstateC3 ⟨0, 1⟩).canvas = wstateC3.canvas ∧
    (moveActiveTetromino wstateC3 ⟨0, 1⟩).activeBlockPositions = updateActiveBlocks wstateC3 :=
  claim3_all_or_nothing wstateC3 ⟨0, 1⟩ (by decide) (by decide) (by decide)

/-- C6: on a tick with no active cells and the game not yet over, after the
line-clear pass game over is flagged exactly when the hidden top row holds an
inactive occupied cell; in that case the piece is not spawned (the grid stays
the post-clear grid) and the high score is overwritten with the current score
unconditionally (no maximum is taken). -/
theorem claim6_gameover_highscore (s : State) (newBlock : Tetromino)
    (hend : s.gameEnd = false) (hact : updateActiveBlocks s = []) :
    ((reducerTick s newBlock).gameEnd = true ↔
      topRowOccupied (checkForTetris s).canvas = true) ∧
    (topRowOccupied (checkForTetris s).canvas = true →
      (reducerTick s newBlock).canvas = (checkForTetris s).canvas ∧
      (reducerTick s newBlock).highScore = (checkForTetris s).score) := by
  unfold reducerTick
  rw [hend]
  simp only [Bool.false_eq_true, if_false, hact, List.length_nil, if_pos rfl]
  unfold tickSpawnStep
  by_cases htop : topRowOccupied (checkForTetris s).canvas = true
  · rw [if_pos htop]
    exact ⟨by simp [htop], fun _ => ⟨rfl, rfl⟩⟩
  · rw [if_neg htop]
    constructor
    · constructor
      · intro hge
        exfalso
        have : (checkForTetris s).gameEnd = s.gameEnd := rfl
        rw [show ({ checkForTetris s with
            canvas := spawnTetromino (checkForTetris s).canvas (checkForTetris s).nextTetromino 4 0 none,
            previewCanvas := spawnTetromino CanvasInit newBlock 2 3 none,
            activeBlockPositions := updateActiveBlocks (checkForTetris s),
            nextTetromino := newBlock } : State).gameEnd = s.gameEnd from rfl, hend] at hge
        cases hge
      · intro h
        exact absurd h htop
    · intro h
      exact absurd h htop

theorem claim6_witness :
    ((reducerTick wstateC6 squareBlock).gameEnd = true ↔
      topRowOccupied (checkForTetris wstateC6).canvas = true) ∧
    (topRowOccupied (checkForTetris wstateC6).canvas = true →
      (reducerTick wstateC6 squareBlock).canvas = (checkForTetris wstateC6).canvas ∧
      (reducerTick wstateC6 squareBlock).highScore = (checkForTetris wstateC6).score) :=
  claim6_gameover_highscore wstateC6 squareBlock rfl (by decide)

/-- C7 counterexample: the claim says a destination row `y` with
`0 ≤ y < GRID_HEIGHT + 2` is never a boundary collision, and for an empty,
in-range destination no other rule applies — so the check should report no
collision.  The code reports a collision for destination row 0 (its guard is
`direction.y + y <= 0`, not `< 0`): a single cell at `(0, 0)` with zero delta
on an empty grid. -/
theorem claim7_counterexample :
    cellAt CanvasInit 0 0 = none ∧
    ((0 : Int) ≤ 0 ∧ (0 : Int) < GRID_HEIGHT + 2 ∧
     (0 : Int) ≤ 0 ∧ (0 : Int) < GRID_WIDTH) ∧
    checkCollision CanvasInit [⟨0, 0⟩] ⟨0, 0⟩ = true := by
  refine ⟨rfl, by decide, ?_⟩
  rfl

/-- C7 (amended): for an in-range, empty destination, the single-cell check
collides exactly when the destination row satisfies `y ≤ 0` or
`y ≥ GRID_HEIGHT + 2`; and a member cell whose destination row satisfies that
bound forces a collision for any block list containing it. -/
theorem claim7_boundary_rule (canvas : Canvas) (b d : Pos) (blocks : List Pos)
    (hx : 0 ≤ d.x + b.x ∧ d.x + b.x < GRID_WIDTH)
    (hempty : cellAt canvas (d.x + b.x) (d.y + b.y) = none) :
    (checkCollision canvas [b] d = true ↔
      (d.y + b.y ≤ 0 ∨ GRID_HEIGHT + 2 ≤ d.y + b.y)) ∧
    (b ∈ blocks → (d.y + b.y ≤ 0 ∨ GRID_HEIGHT + 2 ≤ d.y + b.y) →
      checkCollision canvas blocks d = true) := by
  constructor
  · rw [checkCollision_singleton]
    unfold collidesCell
    by_cases hy : d.y + b.y ≥ GRID_HEIGHT + 2 ∨ d.y + b.y ≤ 0
    · rw [if_pos hy]
      constructor
      · intro _
        tauto
      · intro _
        rfl
    · rw [if_neg hy, hempty]
      have hnc : ¬ ((none : Option Block).isSome = true ∨ d.x + b.x < 0 ∨
          d.x + b.x ≥ GRID_WIDTH) := by
        simp only [Option.isSome_none, Bool.false_eq_true, false_or, not_or, not_lt, not_le]
        exact ⟨hx.1, hx.2⟩
      rw [if_neg hnc]
      constructor
      · intro h
        cases h
      · intro h
        exfalso
        tauto
  · intro hmem hy
    rw [checkCollision_true_iff]
    exact ⟨b, hmem, collidesCell_of_boundary canvas d b (by tauto)⟩

theorem claim7_witness :
    ((0 : Int) ≤ (⟨0, -10⟩ : Pos).x + (⟨0, 5⟩ : Pos).x ∧
      (⟨0, -10⟩ : Pos).x + (⟨0, 5⟩ : Pos).x < GRID_WIDTH) ∧
    cellAt CanvasInit ((⟨0, -10⟩ : Pos).x + (⟨0, 5⟩ : Pos).x)
      ((⟨0, -10⟩ : Pos).y + (⟨0, 5⟩ : Pos).y) = none ∧
    ((checkCollision CanvasInit [⟨0, 5⟩] ⟨0, -10⟩ = true ↔
      ((⟨0, -10⟩ : Pos).y + (⟨0, 5⟩ : Pos).y ≤ 0 ∨
        GRID_HEIGHT + 2 ≤ (⟨0, -10⟩ : Pos).y + (⟨0, 5⟩ : Pos).y)) ∧
     ((⟨0, 5⟩ : Pos) ∈ [(⟨0, 5⟩ : Pos)] →
      ((⟨0, -10⟩ : Pos).y + (⟨0, 5⟩ : Pos).y ≤ 0 ∨
        GRID_HEIGHT + 2 ≤ (⟨0, -10⟩ : Pos).y + (⟨0, 5⟩ : Pos).y) →
      checkCollision CanvasInit [(⟨0, 5⟩ : Pos)] ⟨0, -10⟩ = true)) :=
  ⟨by decide, by decide,
    claim7_boundary_rule CanvasInit ⟨0, 5⟩ ⟨0, -10⟩ [⟨0, 5⟩] (by decide) (by decide)⟩

/-- C8: the occupancy rules of `checkCollision`.  (a) A member cell whose
destination holds an inactive (locked) block forces a collision for the whole
list.  (b) A destination holding an active block is not a collision (shown on
a one-cell list, away from the row-boundary rule, which takes precedence).
(c) The check is set-wide: a collision of any one member cell is a collision
of the whole set. -/
theorem claim8_occupancy_rules :
    (∀ (canvas : Canvas) (blocks : List Pos) (d b : Pos) (blk : Block),
      b ∈ blocks → cellAt canvas (d.x + b.x) (d.y + b.y) = some blk →
      blk.isActive = false → checkCollision canvas blocks d = true) ∧
    (∀ (canvas : Canvas) (b d : Pos) (blk : Block),
      cellAt canvas (d.x + b.x) (d.y + b.y) = some blk → blk.isActive = true →
      0 < d.y + b.y → d.y + b.y < GRID_HEIGHT + 2 →
      checkCollision canvas [b] d = false) ∧
    (∀ (canvas : Canvas) (blocks : List Pos) (d b : Pos),
      b ∈ blocks → checkCollision canvas [b] d = true →
      checkCollision canvas blocks d = true) := by
  refine ⟨?_, ?_, ?_⟩
  · intro canvas blocks d b blk hmem hcell hinact
    rw [checkCollision_true_iff]
    refine ⟨b, hmem, ?_⟩
    unfold collidesCell
    by_cases hy : d.y + b.y ≥ GRID_HEIGHT + 2 ∨ d.y + b.y ≤ 0
    · rw [if_pos hy]
    · rw [if_neg hy, hcell]
      rw [if_pos (Or.inl (by simp))]
      simp [hinact]
  · intro canvas b d blk hcell hact h0 hH
    rw [checkCollision_singleton]
    unfold collidesCell
    rw [if_neg (by omega), hcell]
    rw [if_pos (Or.inl (by simp))]
    simp [hact]
  · intro canvas blocks d b hmem hsingle
    rw [checkCollision_singleton] at hsingle
    rw [checkCollision_true_iff]
    exact ⟨b, hmem, hsingle⟩

theorem claim8_witness :
    (checkCollision wcanvasC8 [⟨5, 5⟩, ⟨0, 0⟩] ⟨0, 1⟩ = true) ∧
    (checkCollision wcanvasC8 [⟨0, 1⟩] ⟨0, 1⟩ = false) ∧
    (checkCollision wcanvasC8 [⟨9, 9⟩, ⟨0, 0⟩] ⟨0, 1⟩ = true) :=
  ⟨claim8_occupancy_rules.1 wcanvasC8 [⟨5, 5⟩, ⟨0, 0⟩] ⟨0, 1⟩ ⟨0, 0⟩
      (createBlock Colour.red false) (by decide) (by decide) rfl,
   claim8_occupancy_rules.2.1 wcanvasC8 ⟨0, 1⟩ ⟨0, 1⟩ (createBlock Colour.aqua true)
      (by decide) rfl (by decide) (by decide),
   claim8_occupancy_rules.2.2 wcanvasC8 [⟨9, 9⟩, ⟨0, 0⟩] ⟨0, 1⟩ ⟨0, 0⟩
      (by decide) (by decide)⟩

/-- C4: if the rotated coordinate set collides (zero delta) on the grid with
the active cells removed, `rotateTetromino` returns the original state
unchanged — no wall kick or retry.  (The code performs its check on the full
grid, which `checkCollision_removedActive` shows is equivalent under the
grid-shape invariant.) -/
theorem claim4_rotation_rejection (s : State) (direction : Int)
    (hdir : direction = 1 ∨ direction = -1)
    (hw : ∀ row ∈ s.canvas, row.length = GRID_WIDTH.toNat)
    (hne : updateActiveBlocks s ≠ [])
    (hcol : checkCollision (removedActiveCanvas s)
      (rotatedPositions (updateActiveBlocks s) direction) ⟨0, 0⟩ = true) :
    rotateTetromino s direction = s := by
  have hcol' : checkCollision s.canvas
      (rotatedPositions (updateActiveBlocks s) direction) ⟨0, 0⟩ = true := by
    rw [← checkCollision_removedActive s _ _ hw]
    exact hcol
  have hlen : ¬ (updateActiveBlocks s).length = 0 := by
    intro h
    exact hne (List.length_eq_zero.mp h)
  unfold rotateTetromino
  rw [if_neg hlen, if_pos hcol']

theorem claim4_witness : rotateTetromino wstateC4 1 = wstateC4 :=
  claim4_rotation_rejection wstateC4 1 (Or.inl rfl) (by decide) (by decide) (by
    have h0 : updateActiveBlocks wstateC4 = [⟨0, 0⟩] := by decide
    have h : rotatedPositions [(⟨0, 0⟩ : Pos)] 1 = [⟨0, 0⟩] := by
      norm_num [rotatedPositions, centreOfRotation, rotationHelper, jsRound]
    rw [h0, h]
    decide)

/-- C5: on a gravity pass over a state whose piece cannot move down — the
whole-set downward collision check is positive, or some member cell already
sits at the level-offset floor row — the resulting state has no active cell at
all and an empty active-position list: the whole piece locks in the same
step.  (The hypothesis requires an active cell inside the scanned
`(GRID_HEIGHT + 2) × GRID_WIDTH` region, i.e. the piece exists.) -/
theorem claim5_lock (s : State)
    (hlvl : 1 ≤ s.level)
    (hact : ∃ r c, 0 ≤ r ∧ r ≤ GRID_HEIGHT + 1 ∧ 0 ≤ c ∧ c < GRID_WIDTH ∧
      isActiveAt s.canvas c r = true)
    (hstuck : checkCollision s.canvas s.activeBlockPositions ⟨0, 1⟩ = true ∨
      ∃ p ∈ s.activeBlockPositions, GRID_HEIGHT + (s.level : Int) ≤ p.y) :
    (∀ x y b, cellAt (applyGravity s).canvas x y = some b → b.isActive = false) ∧
    (applyGravity s).activeBlockPositions = [] := by
  have hcol : checkCollision s.canvas s.activeBlockPositions ⟨0, 1⟩ = true := by
    rcases hstuck with h | h
    · exact h
    · obtain ⟨p, hp, hpy⟩ := h
      rw [checkCollision_true_iff]
      refine ⟨p, hp, collidesCell_of_boundary s.canvas ⟨0, 1⟩ p (Or.inl ?_)⟩
      unfold GRID_HEIGHT at *
      dsimp only
      omega
  have heq : applyGravity s = makeAllBlocksInactive s := by
    unfold applyGravity
    apply applyGravityAux_locks s _ _ hcol
    obtain ⟨r, c, h1, h2, h3, h4, h5⟩ := hact
    exact ⟨r, c, h1, h3, h4, by omega, h5⟩
  rw [heq]
  exact ⟨fun x y b h => makeAllBlocksInactive_no_active s x y b h, rfl⟩

theorem claim5_witness :
    (∀ x y b, cellAt (applyGravity wstateC5).canvas x y = some b → b.isActive = false) ∧
    (applyGravity wstateC5).activeBlockPositions = [] :=
  claim5_lock wstateC5 (by decide)
    ⟨21, 0, by decide, by decide, by decide, by decide, by decide⟩
    (Or.inl (by decide))

theorem foldl_sum_pt (l : List Pos) (init : Pt Int) :
    l.foldl (fun acc block => (⟨acc.x + block.x, acc.y + block.y⟩ : Pt Int)) init =
      ⟨init.x + (l.map Pt.x).sum, init.y + (l.map Pt.y).sum⟩ := by
  induction l generalizing init with
  | nil => cases init <;> simp
  | cons p t ih =>
    rw [List.foldl_cons, ih]
    simp [add_assoc]

/-- C9: the coordinate computation of `rotateTetromino` is exactly the
spec-described pipeline: unrounded centroid, translation, rotation matrix,
back-translation, then rounding. -/
theorem claim9_rotation_pipeline (positions : List Pos) (direction : Int)
    (hdir : direction = 1 ∨ direction = -1) (hne : positions ≠ []) :
    rotatedPositions positions direction = specRotatedPositions positions direction := by
  unfold rotatedPositions specRotatedPositions rotationHelper centreOfRotation
  rw [foldl_sum_pt]
  dsimp only
  rcases hdir with h | h <;> subst h
  · rw [if_pos rfl, List.map_map, List.map_map]
    apply List.map_congr_left
    intro p _
    simp only [Function.comp_apply, if_true, if_false, reduceIte]
    rw [Pt.mk.injEq]
    constructor <;> exact congrArg jsRound (by push_cast; ring)
  · rw [if_neg (by decide), if_pos rfl, List.map_map, List.map_map]
    apply List.map_congr_left
    intro p _
    simp only [Function.comp_apply, if_true, if_false, reduceIte]
    rw [Pt.mk.injEq]
    constructor <;> exact congrArg jsRound (by push_cast; ring)

theorem claim9_witness :
    rotatedPositions [(⟨4, 0⟩ : Pos), ⟨5, 0⟩, ⟨4, 1⟩, ⟨5, 1⟩] 1 =
      specRotatedPositions [(⟨4, 0⟩ : Pos), ⟨5, 0⟩, ⟨4, 1⟩, ⟨5, 1⟩] 1 :=
  claim9_rotation_pipeline [⟨4, 0⟩, ⟨5, 0⟩, ⟨4, 1⟩, ⟨5, 1⟩] 1 (Or.inl rfl) (by decide)

/-- C10: movement (all three directions) and rotation (both directions) leave
every inactive (locked) cell exactly as it was — same position, same colour,
still inactive — and never create an inactive cell anywhere; a cell holds a
given inactive block after the operation exactly when it held it before. -/
theorem claim10_inactive_frame (s : State) (d : Pos) (direction : Int)
    (hd : d = ⟨-1, 0⟩ ∨ d = ⟨1, 0⟩ ∨ d = ⟨0, 1⟩)
    (hdir : direction = 1 ∨ direction = -1)
    (x y : Int) (b : Block) (hb : b.isActive = false) :
    (cellAt s.canvas x y = some b ↔
      cellAt (moveActiveTetromino s d).canvas x y = some b) ∧
    (cellAt s.canvas x y = some b ↔
      cellAt (rotateTetromino s direction).canvas x y = some b) :=
  ⟨moveActiveTetromino_inactiveAgree s d x y b hb,
   rotateTetromino_inactiveAgree s direction x y b hb⟩

theorem claim10_witness :
    ((cellAt wstateC3.canvas 0 1 = some (createBlock Colour.red false) ↔
      cellAt (moveActiveTetromino wstateC3 ⟨1, 0⟩).canvas 0 1 =
        some (createBlock Colour.red false)) ∧
     (cellAt wstateC3.canvas 0 1 = some (createBlock Colour.red false) ↔
      cellAt (rotateTetromino wstateC3 1).canvas 0 1 =
        some (createBlock Colour.red false))) :=
  claim10_inactive_frame wstateC3 ⟨1, 0⟩ 1 (by decide) (by decide) 0 1
    (createBlock Colour.red false) rfl
